import Mathlib

/-!
Verification of the contextmenu library (src/contextmenu.js) against its
specification.  The JavaScript source is shallowly embedded: JavaScript
objects that are mutated through shared references (menu item records, menu
maps, the per-attach config object) live in an explicit heap and are
addressed by numeric references; pure computations (menu normalization,
the placement arithmetic, the row builder) are embedded as Lean functions;
the open/close lifecycle is a step relation on an explicit state type.
Pixel coordinates are modelled as integers.  Element resolution
(getElements, lines 184-204) is the out-of-scope external capability of the
spec: operations take the resolved element list directly.
-/

/-- JavaScript function values that can appear as an onSelect handler.
The normalizer default `function() \x7b\x7d` (line 461) is `noop`; caller
supplied callbacks are distinguished by a numeric identity. -/
inductive Callback where
  | noop
  | user (n : Nat)
deriving DecidableEq

/-- A partial menu item options record, as supplied by the caller in a
menu definition (usage contract, lines 26-31).  `none` marks a field that
is absent from the record. -/
structure ItemRecord where
  enabled : Option Bool := none
  label : Option String := none
  onSelect : Option Callback := none
  title : Option String := none
deriving DecidableEq

/-- A fully populated menu item object, the shape produced by
normalizeMenu (lines 455-486). -/
structure MenuItemSpec where
  type : String
  enabled : Bool
  label : String
  onSelect : Callback
  icon : String
  title : String
deriving DecidableEq

/-- itemDefaults (lines 457-464). -/
def itemDefaults : MenuItemSpec :=
  { type := "item", enabled := true, label := "", onSelect := Callback.noop,
    icon := "", title := "" }

/-- A JavaScript value stored as an entry of a menu map: a falsy value, a
bare callback, an inline partial options record, or a reference to a fully
populated item object in the heap (the state after normalization). -/
inductive JVal where
  | falsy
  | func (f : Callback)
  | record (r : ItemRecord)
  | ref (r : Nat)
deriving DecidableEq

/-- True for the entry shapes a caller may put in a menu definition
(callback, options record, falsy); false for an already-normalized
reference. -/
def isUserEntry : JVal → Bool
  | JVal.ref _ => false
  | _ => true

/-- Heap of mutable JavaScript objects: item records, menu maps
(insertion-ordered key/value lists), per-attach config objects, and the
ctxMenu slot of each element (a reference to a config object, if any). -/
structure CfgObj where
  menuRef : Nat
  event : String
  position : String
  horizontalOffset : Int
  verticalOffset : Int
  data : Nat
deriving DecidableEq

def defaultCfg : CfgObj :=
  { menuRef := 0, event := "", position := "", horizontalOffset := 0,
    verticalOffset := 0, data := 0 }

structure Heap where
  items : List MenuItemSpec
  menuObjs : List (List (String × JVal))
  cfgObjs : List CfgObj
  elems : List (Option Nat)
deriving DecidableEq

def emptyHeap : Heap := { items := [], menuObjs := [], cfgObjs := [], elems := [] }

/-- Normalization of one entry value (the three branches of the loop body,
lines 467-483).  `extend(dflt, x)` copies the fields present in `x` over a
fresh copy of the defaults; for an already-normalized item reference the
record branch runs and copies every field of the referenced item. -/
def normalizeValue (h : Heap) (key : String) (v : JVal) : MenuItemSpec :=
  match v with
  | JVal.falsy => { itemDefaults with label := key }
  | JVal.func f => { itemDefaults with label := key, onSelect := f }
  | JVal.record r =>
      { type := itemDefaults.type
        enabled := r.enabled.getD itemDefaults.enabled
        label := r.label.getD itemDefaults.label
        onSelect := r.onSelect.getD itemDefaults.onSelect
        icon := itemDefaults.icon
        title := r.title.getD itemDefaults.title }
  | JVal.ref i => h.items.getD i itemDefaults

/-- Pure view of normalizeMenu (lines 455-486): the fully populated item
that each entry of the definition is replaced by. -/
def normalizeMenuList (h : Heap) (entries : List (String × JVal)) :
    List (String × MenuItemSpec) :=
  entries.map (fun p => (p.1, normalizeValue h p.1 p.2))

/-- Heap-level normalizeMenu loop: each entry value is replaced, in place
in the menu map, by a reference to a freshly allocated item object. -/
def normalizeMenuEntries (h : Heap) : List (String × JVal) → Heap × List (String × JVal)
  | [] => (h, [])
  | (k, v) :: rest =>
      let spec := normalizeValue h k v
      let r := h.items.length
      let h1 : Heap := { h with items := h.items ++ [spec] }
      let (h2, rest2) := normalizeMenuEntries h1 rest
      (h2, (k, JVal.ref r) :: rest2)

/-- normalizeMenu (lines 455-486) applied to the menu map object `menuRef`:
mutates the map in place, entry by entry. -/
def normalizeMenuH (h : Heap) (menuRef : Nat) : Heap :=
  let (h1, entries2) := normalizeMenuEntries h (h.menuObjs.getD menuRef [])
  { h1 with menuObjs := h1.menuObjs.set menuRef entries2 }

/-- The options argument of attach/display; `none` marks an absent field. -/
structure Options where
  event : Option String := none
  position : Option String := none
  horizontalOffset : Option Int := none
  verticalOffset : Option Int := none
  data : Option Nat := none
deriving DecidableEq

/-- Merge performed by `extend(\x7bmenu: ...\x7d, conf, options)` (lines
510-512): module-level conf defaults (lines 78-84) overridden by the
fields present in the caller options. -/
def mergeConf (menuRef : Nat) (opts : Options) : CfgObj :=
  { menuRef := menuRef
    event := opts.event.getD "click"
    position := opts.position.getD "bottom"
    horizontalOffset := opts.horizontalOffset.getD 0
    verticalOffset := opts.verticalOffset.getD 0
    data := opts.data.getD 0 }

/-- attach (lines 503-522) over an already-resolved element list: normalize
the caller menu in place, build one config object holding a fresh shallow
copy of the (now normalized) menu map, and store that one object reference
on every resolved element. -/
def attach (h : Heap) (elemIds : List Nat) (menuRef : Nat) (opts : Options) : Heap :=
  let h1 := normalizeMenuH h menuRef
  let copied := h1.menuObjs.getD menuRef []
  let menuCopyRef := h1.menuObjs.length
  let h2 : Heap := { h1 with menuObjs := h1.menuObjs ++ [copied] }
  let cfg := mergeConf menuCopyRef opts
  let cfgRef := h2.cfgObjs.length
  let h3 : Heap := { h2 with cfgObjs := h2.cfgObjs ++ [cfg] }
  elemIds.foldl (fun hh e => { hh with elems := hh.elems.set e (some cfgRef) }) h3

/-- Lookup of `menu[key]` in an insertion-ordered menu map. -/
def lookupEntry (key : String) : List (String × JVal) → Option JVal
  | [] => none
  | (k, v) :: rest => if k = key then some v else lookupEntry key rest

/-- Replacement of the entry at `key` in a menu map. -/
def setEntry (key : String) (v : JVal) : List (String × JVal) → List (String × JVal)
  | [] => []
  | (k, w) :: rest => if k = key then (k, v) :: rest else (k, w) :: setEntry key v rest

/-- Body of the setEnabledState loop for one element (lines 440-444):
`elements[idx].ctxMenu.menu[key].enabled = enabled`.  An element without a
ctxMenu slot, or a falsy entry, makes the strict-mode source throw, hence
`none`; a missing key is skipped by the hasOwnProperty guard; assignment
onto a function object is legal and unobservable here. -/
def setEnabledState1 (h : Heap) (e : Nat) (key : String) (enabled : Bool) : Option Heap :=
  match h.elems.getD e none with
  | none => none
  | some cfgRef =>
      let cfg := h.cfgObjs.getD cfgRef defaultCfg
      let entries := h.menuObjs.getD cfg.menuRef []
      match lookupEntry key entries with
      | none => some h
      | some JVal.falsy => none
      | some (JVal.func _) => some h
      | some (JVal.record r) =>
          some { h with menuObjs := (h.menuObjs.set cfg.menuRef
                  (setEntry key (JVal.record { r with enabled := some enabled }) entries)) }
      | some (JVal.ref r) =>
          some { h with items := (h.items.set r
                  { (h.items.getD r itemDefaults) with enabled := enabled }) }

/-- setEnabledState (lines 433-445) over a resolved element list. -/
def setEnabledState (h : Heap) (elemIds : List Nat) (key : String) (enabled : Bool) :
    Option Heap :=
  elemIds.foldlM (fun hh e => setEnabledState1 hh e key enabled) h

/-- ContextMenu.disable (lines 587-589). -/
def disable (h : Heap) (elemIds : List Nat) (key : String) : Option Heap :=
  setEnabledState h elemIds key false

/-- ContextMenu.enable (lines 599-601). -/
def enable (h : Heap) (elemIds : List Nat) (key : String) : Option Heap :=
  setEnabledState h elemIds key true

/-- Observation used by the claims: the enabled flag of the item at `key`
of the menu associated with element `e`, read exactly the way
setEnabledState and createContextMenu reach it. -/
def menuItemEnabled (h : Heap) (e : Nat) (key : String) : Option Bool :=
  match h.elems.getD e none with
  | none => none
  | some cfgRef =>
      let cfg := h.cfgObjs.getD cfgRef defaultCfg
      match lookupEntry key (h.menuObjs.getD cfg.menuRef []) with
      | some (JVal.ref r) => some (h.items.getD r itemDefaults).enabled
      | some (JVal.record r) => r.enabled
      | _ => none

/-- Observation: the enabled flag of the item at `key` as seen through the
menu map object `menuRef` itself (the caller-held source object). -/
def callerItemEnabled (h : Heap) (menuRef : Nat) (key : String) : Option Bool :=
  match lookupEntry key (h.menuObjs.getD menuRef []) with
  | some (JVal.ref r) => some (h.items.getD r itemDefaults).enabled
  | some (JVal.record r) => r.enabled
  | _ => none

/-- Concrete scenario heap: two elements (ids 0 and 1), no configs yet, and
one caller-held menu object (ref 0) with a single callback entry. -/
def baseHeap : Heap :=
  { items := []
    menuObjs := [[("Save", JVal.func (Callback.user 1))]]
    cfgObjs := []
    elems := [none, none] }

/-- A DOMRect as returned by getBoundingClientRect: left/top plus size;
`right` and `bottom` are derived, as in the browser. -/
structure Box where
  left : Int
  top : Int
  width : Int
  height : Int
deriving DecidableEq

def Box.right (b : Box) : Int := b.left + b.width

def Box.bottom (b : Box) : Int := b.top + b.height

/-- Leading-edge clamp (lines 351-357 for left, 360-366 for top): a
coordinate that went negative snaps to the offset when the offset is
non-negative, else to 0. -/
def clampLow (offset x : Int) : Int :=
  if x < 0 then (if 0 ≤ offset then offset else 0) else x

/-- Trailing-edge clamp (lines 369-375 for left, 378-384 for top): a
coordinate whose far edge passes the viewport snaps to viewport minus menu
size, with a negative offset added on top. -/
def clampHigh (offset size limit x : Int) : Int :=
  if x + size > limit then
    (if 0 ≤ offset then limit - size else limit - size + offset)
  else x

/-- Unclamped candidate position by anchor mode (lines 319-346).  An empty
position string is falsy, so the source default "click" applies; any
unrecognized mode falls into the pointer branch. -/
def anchorCandidate (clientX clientY : Int) (targetBox menuBox : Box)
    (pos : String) (hOff vOff : Int) : Int × Int :=
  let position := if pos = "" then "click" else pos
  if position = "bottom" then
    (targetBox.left + hOff, targetBox.bottom + vOff)
  else if position = "top" then
    (targetBox.left + hOff, targetBox.top - menuBox.height + vOff)
  else if position = "right" then
    (targetBox.left + targetBox.width + hOff, targetBox.top + vOff)
  else if position = "left" then
    (targetBox.left - menuBox.width + hOff, targetBox.top + vOff)
  else
    (clientX + hOff, clientY + vOff)

/-- positionContextMenu (lines 313-389): candidate by anchor mode, then the
four clamps in source order (left low, top low, left high, top high); the
two axes are independent, so each axis is its low clamp followed by its
high clamp.  `limit` values are document.body.clientWidth/Height. -/
def positionContextMenu (clientX clientY : Int) (targetBox menuBox : Box)
    (pos : String) (hOff vOff bodyWidth bodyHeight : Int) : Int × Int :=
  let c := anchorCandidate clientX clientY targetBox menuBox pos hOff vOff
  (clampHigh hOff menuBox.width bodyWidth (clampLow hOff c.1),
   clampHigh vOff menuBox.height bodyHeight (clampLow vOff c.2))

/-- Simulated event built by display for an element argument (lines
565-573): clientX/clientY are the bounding box left and top. -/
def simulatedEvent (box : Box) : Int × Int := (box.left, box.top)

/-- Placement performed when display is called with an element (lines
562-574): the synthesized event coordinates feed positionContextMenu
together with the merged config (conf defaults overridden by options). -/
def displayPlacement (elemBox menuBox : Box) (opts : Options)
    (bodyWidth bodyHeight : Int) : Int × Int :=
  let evt := simulatedEvent elemBox
  let cfg := mergeConf 0 opts
  positionContextMenu evt.1 evt.2 elemBox menuBox cfg.position
    cfg.horizontalOffset cfg.verticalOffset bodyWidth bodyHeight

/-- One rendered menu row (lines 267-298).  `id` is the creation index and
models DOM node identity; `handler` is the bound selection callback, absent
for disabled rows (no listener is attached, lines 281-292). -/
structure Row where
  id : Nat
  key : String
  enabled : Bool
  className : String
  label : String
  title : String
  handler : Option Callback
deriving DecidableEq

/-- Construction of one row from a normalized item (loop body, lines
265-298): enabled is coerced to a Bool, the class name reflects it, the
label falls back to the key when the item label is falsy (empty), and a
selection handler is bound only when enabled (the normalized onSelect is
always a function, so the module-level default handler is never used). -/
def buildRow (idx : Nat) (key : String) (spec : MenuItemSpec) : Row :=
  { id := idx
    key := key
    enabled := spec.enabled
    className := if spec.enabled then "context-menu-item" else "context-menu-item-disabled"
    label := if spec.label = "" then key else spec.label
    title := spec.title
    handler := if spec.enabled then some spec.onSelect else none }

def buildRows (startIdx : Nat) : List (String × MenuItemSpec) → List Row
  | [] => []
  | (k, spec) :: rest => buildRow startIdx k spec :: buildRows (startIdx + 1) rest

/-- createContextMenu (lines 254-302): one row per menu entry, in
insertion order. -/
def createContextMenu (specs : List (String × MenuItemSpec)) : List Row :=
  buildRows 0 specs

/-- Module-level lifecycle state: the menu containers present in the
document (by identity), the isOpen flag (line 90), whether the three
global dismissal listeners are registered, and a fresh-identity counter. -/
structure MState where
  menus : List Nat
  isOpen : Bool
  listeners : Bool
  nextId : Nat
deriving DecidableEq

def initState : MState := { menus := [], isOpen := false, listeners := false, nextId := 0 }

/-- closeContextMenu (lines 410-423): remove the three global listeners
(a no-op when absent), sweep every container with the menu class out of
the document, and clear isOpen. -/
def closeContextMenu (s : MState) : MState :=
  { s with listeners := false, menus := [], isOpen := false }

/-- onContextMenu (lines 217-244): unconditionally close any open menu
first; when the clicked element carries a ctxMenu config, build and append
a fresh container and set isOpen.  Listener registration and positioning
are deferred to the next tick (modelled by positionTick). -/
def onContextMenu (hasCtxMenu : Bool) (s : MState) : MState :=
  let s1 := closeContextMenu s
  if hasCtxMenu then
    { s1 with menus := s1.menus ++ [s1.nextId], isOpen := true, nextId := s1.nextId + 1 }
  else s1

/-- The deferred setTimeout body (lines 233-242): registers the three
dismissal listeners and positions the menu; it adds or removes no
container. -/
def positionTick (s : MState) : MState := { s with listeners := true }

/-- One onSelect invocation as observed by the caller: which callback ran
and the four arguments it received (lines 288-291). -/
structure SelectCall where
  cb : Callback
  targetElem : Nat
  key : String
  item : Option Nat
  data : Nat
deriving DecidableEq

/-- Value of the function-scoped loop variable `item` once the build loop
of createContextMenu has finished: the row created last.  Every click
handler closes over this single variable (lines 267, 288-291). -/
def lastItemVar (rows : List Row) : Option Nat := rows.getLast?.map (fun r => r.id)

/-- Click on row `i` of an open menu (listener bound at lines 288-291):
a disabled row has no listener and nothing happens; an enabled row invokes
its stored onSelect once with (target, own key, the shared loop variable
item, configured data) and then runs closeContextMenu. -/
def clickRow (targetElem : Nat) (data : Nat) (rows : List Row) (i : Nat)
    (s : MState) : List SelectCall × MState :=
  match rows.get? i with
  | none => ([], s)
  | some row =>
      match row.handler with
      | none => ([], s)
      | some cb =>
          ([{ cb := cb, targetElem := targetElem, key := row.key,
              item := lastItemVar rows, data := data }], closeContextMenu s)

/-- Events that drive the lifecycle: a trigger event on an element (with or
without an attached config), the deferred positioning tick, and any of the
closing events (explicit close call, outside click, resize, scroll, or the
close that follows a selection). -/
inductive Step : MState → MState → Prop where
  | trigger (b : Bool) (s : MState) : Step s (onContextMenu b s)
  | tick (s : MState) : Step s (positionTick s)
  | close (s : MState) : Step s (closeContextMenu s)

inductive Reachable : MState → Prop where
  | init : Reachable initState
  | step {s t : MState} : Reachable s → Step s t → Reachable t

/-- Invariant carried by every reachable lifecycle state: at most one
container exists and all container identities are below the counter. -/
def MenuInv (s : MState) : Prop :=
  s.menus.length ≤ 1 ∧ ∀ i ∈ s.menus, i < s.nextId

/-- Concrete two-item menu definition used to observe the selection
handler: two enabled entries with distinct callbacks. -/
def twoItemMenu : List (String × JVal) :=
  [("a", JVal.func (Callback.user 1)), ("b", JVal.func (Callback.user 2))]

/-- Composing the low clamp and then the high clamp keeps a coordinate
non-negative whenever the offset is non-negative and the menu fits the
viewport on that axis. -/
theorem clampHigh_clampLow_nonneg (off size limit x : Int) (h1 : 0 ≤ off)
    (h2 : size ≤ limit) : 0 ≤ clampHigh off size limit (clampLow off x) := by
  unfold clampLow clampHigh
  split_ifs <;> omega

/-- With a negative offset the composed clamps leave the coordinate
non-negative unless the trailing clamp fired, in which case the result is
the trailing snap value (which may be negative). -/
theorem clampHigh_clampLow_neg (off size limit x : Int) (h : off < 0) :
    0 ≤ clampHigh off size limit (clampLow off x) ∨
      clampHigh off size limit (clampLow off x) = limit - size + off := by
  unfold clampLow clampHigh
  split_ifs <;> omega

/-- Normalization of a caller-supplied entry does not consult the heap. -/
theorem normalizeValue_heap_irrel (h1 h2 : Heap) (k : String) (v : JVal)
    (hv : isUserEntry v = true) : normalizeValue h1 k v = normalizeValue h2 k v := by
  cases v with
  | falsy => rfl
  | func f => rfl
  | record r => rfl
  | ref i => simp [isUserEntry] at hv

/-- Coherence of the heap-level normalizeMenu with its pure view: the loop
allocates exactly the items that normalizeMenuList describes, in order. -/
theorem normalizeMenuEntries_items (entries : List (String × JVal)) (h : Heap)
    (hu : ∀ p ∈ entries, isUserEntry p.2 = true) :
    (normalizeMenuEntries h entries).1.items
      = h.items ++ (normalizeMenuList h entries).map Prod.snd := by
  induction entries generalizing h with
  | nil => simp [normalizeMenuEntries, normalizeMenuList]
  | cons p rest ih =>
      obtain ⟨k, v⟩ := p
      have hrest : ∀ q ∈ rest, isUserEntry q.2 = true :=
        fun q hq => hu q (List.mem_cons_of_mem _ hq)
      have hmap : normalizeMenuList { h with items := h.items ++ [normalizeValue h k v] } rest
          = normalizeMenuList h rest := by
        unfold normalizeMenuList
        refine List.map_congr_left ?_
        intro q hq
        rw [normalizeValue_heap_irrel _ h _ _ (hrest q hq)]
      show (normalizeMenuEntries { h with items := h.items ++ [normalizeValue h k v] } rest).1.items = _
      rw [ih _ hrest, hmap]
      simp [normalizeMenuList]

/-- Every reachable lifecycle state satisfies the container invariant. -/
theorem reachable_inv {s : MState} (h : Reachable s) : MenuInv s := by
  induction h with
  | init => exact ⟨by simp [initState], by intro i hi; simp [initState] at hi⟩
  | step hs hstep ih =>
      cases hstep with
      | trigger b s =>
          cases b with
          | false =>
              exact ⟨by simp [onContextMenu, closeContextMenu],
                     by intro i hi; simp [onContextMenu, closeContextMenu] at hi⟩
          | true =>
              refine ⟨by simp [onContextMenu, closeContextMenu], ?_⟩
              intro i hi
              simp only [onContextMenu, closeContextMenu] at hi ⊢
              simp at hi
              simp
              omega
      | tick s => exact ih
      | close s =>
          exact ⟨by simp [closeContextMenu],
                 by intro i hi; simp [closeContextMenu] at hi⟩

/-- C1: the claim says every pair of distinct elements resolved by one
attach call holds independent configs, so that disable through one leaves
the other unchanged.  The source stores the SAME config object reference
on every resolved element (lines 518-521), despite the comment at lines
508-509 that extend is used so that each element gets a unique copy, so
disabling the item through element 0 also disables it for element 1. -/
theorem shared_config_disable :
    (attach baseHeap [0, 1] 0 {}).elems = [some 0, some 0] ∧
    menuItemEnabled (attach baseHeap [0, 1] 0 {}) 0 "Save" = some true ∧
    menuItemEnabled (attach baseHeap [0, 1] 0 {}) 1 "Save" = some true ∧
    (disable (attach baseHeap [0, 1] 0 {}) [0] "Save").map
        (fun h2 => (menuItemEnabled h2 0 "Save", menuItemEnabled h2 1 "Save"))
      = some (some false, some false) := by
  decide

/-- C2: the claim says clicking an enabled row passes the clicked row node
to onSelect.  The handler (lines 288-291) invokes the correct callback
exactly once with the correct key and then closes, but the row node it
passes is the value of the function-scoped loop variable `item`, i.e. the
row created last: clicking row 0 of a two-item menu passes row 1, against
the own documentation of the source (lines 37, 398). -/
theorem select_passes_last_row :
    clickRow 7 3 (createContextMenu (normalizeMenuList emptyHeap twoItemMenu)) 0
        { menus := [0], isOpen := true, listeners := true, nextId := 1 }
      = ([{ cb := Callback.user 1, targetElem := 7, key := "a", item := some 1, data := 3 }],
         { menus := [], isOpen := false, listeners := false, nextId := 1 }) ∧
    ((createContextMenu (normalizeMenuList emptyHeap twoItemMenu)).get? 0).map
        (fun r => r.id) = some 0 ∧
    (some 1 : Option Nat) ≠ some 0 := by
  decide

/-- C3: in every reachable state at most one menu container exists, and
handling a trigger event on a config-carrying element closes any existing
container synchronously and leaves exactly one, freshly created container
present. -/
theorem at_most_one_menu (s : MState) (h : Reachable s) :
    s.menus.length ≤ 1 ∧
    (onContextMenu true s).menus = [s.nextId] ∧
    s.nextId ∉ s.menus := by
  obtain ⟨h1, h2⟩ := reachable_inv h
  exact ⟨h1, rfl, fun hmem => absurd (h2 _ hmem) (lt_irrefl _)⟩

theorem at_most_one_menu_witness :
    (onContextMenu true initState).menus.length ≤ 1 ∧
    (onContextMenu true (onContextMenu true initState)).menus
      = [(onContextMenu true initState).nextId] ∧
    (onContextMenu true initState).nextId ∉ (onContextMenu true initState).menus :=
  at_most_one_menu (onContextMenu true initState)
    (Reachable.step Reachable.init (Step.trigger true initState))

/-- C4: with anchor mode bottom the candidate is (targetLeft + hOffset,
targetBottom + vOffset) before clamping; the two concrete layouts of the
spec evaluate to (100, 70) and, near the right edge, to final left 940. -/
theorem bottom_anchor_position :
    (∀ (clientX clientY : Int) (tb mb : Box) (hOff vOff : Int),
        anchorCandidate clientX clientY tb mb "bottom" hOff vOff
          = (tb.left + hOff, tb.bottom + vOff)) ∧
    positionContextMenu 0 0 ⟨100, 50, 80, 20⟩ ⟨0, 0, 60, 40⟩ "bottom" 0 0 1000 800
      = (100, 70) ∧
    positionContextMenu 0 0 ⟨970, 50, 80, 20⟩ ⟨0, 0, 60, 40⟩ "bottom" 0 0 1000 800
      = (940, 70) :=
  ⟨fun _ _ _ _ _ _ => rfl, by decide, by decide⟩

/-- C5 counterexample: with horizontal offset -20 (negative), a 90-wide
menu in a 100-wide viewport anchored bottom at target left 40 ends at
final left -10, off-screen on the left; and with non-negative offset 50,
an 80-wide menu whose candidate left is negative ends at final left 20,
below the claimed minimum inset of 50.  Both refute the claim as stated. -/
theorem clamp_negative_offset_offscreen :
    ((-20 : Int) < 0 ∧
      (positionContextMenu 0 0 ⟨40, 0, 10, 10⟩ ⟨0, 0, 90, 10⟩ "bottom" (-20) 0 100 100).1
        = -10 ∧ (-10 : Int) < 0) ∧
    ((0 : Int) ≤ 50 ∧
      (positionContextMenu 0 0 ⟨-60, 0, 10, 10⟩ ⟨0, 0, 80, 10⟩ "bottom" 50 0 100 100).1
        = 20 ∧ (20 : Int) < 50) := by
  decide

/-- C5 amended: a non-negative offset is used as the clamped coordinate
when the leading-edge clamp fires, and with a non-negative offset and a
menu that fits the viewport on that axis the final coordinate is never
negative; with a negative offset the final coordinate is non-negative
unless the trailing-edge clamp fired, whose snap value
viewport - menuSize + offset can be negative. -/
theorem clamp_offset_bounds (clientX clientY : Int) (tb mb : Box) (pos : String)
    (hOff vOff bodyW bodyH : Int) :
    (0 ≤ hOff → mb.width ≤ bodyW →
      0 ≤ (positionContextMenu clientX clientY tb mb pos hOff vOff bodyW bodyH).1) ∧
    (0 ≤ vOff → mb.height ≤ bodyH →
      0 ≤ (positionContextMenu clientX clientY tb mb pos hOff vOff bodyW bodyH).2) ∧
    (hOff < 0 →
      0 ≤ (positionContextMenu clientX clientY tb mb pos hOff vOff bodyW bodyH).1 ∨
      (positionContextMenu clientX clientY tb mb pos hOff vOff bodyW bodyH).1
        = bodyW - mb.width + hOff) ∧
    (∀ x, 0 ≤ hOff → x < 0 → clampLow hOff x = hOff) := by
  have e1 : (positionContextMenu clientX clientY tb mb pos hOff vOff bodyW bodyH).1
      = clampHigh hOff mb.width bodyW (clampLow hOff
          (anchorCandidate clientX clientY tb mb pos hOff vOff).1) := rfl
  have e2 : (positionContextMenu clientX clientY tb mb pos hOff vOff bodyW bodyH).2
      = clampHigh vOff mb.height bodyH (clampLow vOff
          (anchorCandidate clientX clientY tb mb pos hOff vOff).2) := rfl
  refine ⟨?_, ?_, ?_, ?_⟩
  · intro ho hw
    rw [e1]
    exact clampHigh_clampLow_nonneg _ _ _ _ ho hw
  · intro ho hw
    rw [e2]
    exact clampHigh_clampLow_nonneg _ _ _ _ ho hw
  · intro ho
    rw [e1]
    exact clampHigh_clampLow_neg _ _ _ _ ho
  · intro x ho hx
    unfold clampLow
    split_ifs
    omega

theorem clamp_offset_bounds_witness :
    0 ≤ (positionContextMenu 0 0 ⟨0, 0, 10, 10⟩ ⟨0, 0, 60, 40⟩ "bottom" 0 0 1000 800).1 :=
  (clamp_offset_bounds 0 0 ⟨0, 0, 10, 10⟩ ⟨0, 0, 60, 40⟩ "bottom" 0 0 1000 800).1
    (by decide) (by decide)

/-- C6 counterexample: a falsy entry normalizes to an ENABLED item, not a
disabled one as the claim states (the falsy branch at lines 471-474 sets
only the label; the default enabled true survives). -/
theorem falsy_entry_not_disabled :
    (normalizeValue emptyHeap "Paste" JVal.falsy).enabled ≠ false := by decide

/-- C6 amended: every falsy entry of a menu definition is replaced by a
fully populated item that is ENABLED, carries the no-op onSelect (no
caller-visible selection behavior) and uses the key as its label. -/
theorem falsy_entry_normalization (h : Heap) (menu : List (String × JVal)) (k : String)
    (hm : (k, JVal.falsy) ∈ menu) :
    (k, ({ type := "item", enabled := true, label := k, onSelect := Callback.noop,
           icon := "", title := "" } : MenuItemSpec)) ∈ normalizeMenuList h menu :=
  List.mem_map_of_mem (fun p => (p.1, normalizeValue h p.1 p.2)) hm

theorem falsy_entry_normalization_witness :
    ("Paste", ({ type := "item", enabled := true, label := "Paste",
                 onSelect := Callback.noop, icon := "", title := "" } : MenuItemSpec))
      ∈ normalizeMenuList emptyHeap [("Paste", JVal.falsy)] :=
  falsy_entry_normalization emptyHeap [("Paste", JVal.falsy)] "Paste" (List.Mem.head _)

/-- C7 counterexample: an options record that omits label normalizes to
label empty string, not to the key as the claim states (the record branch
at line 481 keeps the default label of the empty string). -/
theorem record_label_not_key :
    (normalizeValue emptyHeap "Open" (JVal.record {})).label ≠ "Open" := by decide

/-- C7 amended: normalization fully populates every entry; absent fields
default to enabled true, onSelect the no-op and title the empty string,
and the label defaults to the key for falsy and callback entries but to
the EMPTY STRING for options records that omit it (the builder, not the
normalizer, later falls back to the key for empty labels).  Every
normalized entry has a string label, Bool enabled and Callback onSelect by
construction. -/
theorem normalization_defaults (h : Heap) (menu : List (String × JVal)) (k : String)
    (v : JVal) (hm : (k, v) ∈ menu) :
    (k, normalizeValue h k v) ∈ normalizeMenuList h menu ∧
    (v = JVal.falsy → normalizeValue h k v = { itemDefaults with label := k }) ∧
    (∀ f, v = JVal.func f →
      normalizeValue h k v = { itemDefaults with label := k, onSelect := f }) ∧
    (∀ r, v = JVal.record r →
      ((r.enabled = none → (normalizeValue h k v).enabled = true) ∧
       (r.label = none → (normalizeValue h k v).label = "") ∧
       (r.onSelect = none → (normalizeValue h k v).onSelect = Callback.noop) ∧
       (r.title = none → (normalizeValue h k v).title = ""))) := by
  refine ⟨List.mem_map_of_mem _ hm, ?_, ?_, ?_⟩
  · intro hv
    subst hv
    rfl
  · intro f hv
    subst hv
    rfl
  · intro r hv
    subst hv
    refine ⟨?_, ?_, ?_, ?_⟩ <;> intro hf <;> simp [normalizeValue, hf, itemDefaults]

theorem normalization_defaults_witness :
    (normalizeValue emptyHeap "Cut" (JVal.record {})).enabled = true ∧
    (normalizeValue emptyHeap "Cut" (JVal.record {})).label = "" :=
  ⟨((normalization_defaults emptyHeap [("Cut", JVal.record {})] "Cut" (JVal.record {})
      (List.Mem.head _)).2.2.2 {} rfl).1 rfl,
   ((normalization_defaults emptyHeap [("Cut", JVal.record {})] "Cut" (JVal.record {})
      (List.Mem.head _)).2.2.2 {} rfl).2.1 rfl⟩

/-- C8: the claim says attach leaves the caller menu object unchanged and
keeps per-instance state unreachable from it.  attach (line 506) runs
normalizeMenu directly on the caller object, replacing every entry in
place, and the stored config holds a shallow copy whose entries are the
very same item references, so disabling through the element is visible
through the caller object. -/
theorem attach_mutates_caller_menu :
    baseHeap.menuObjs.getD 0 [] = [("Save", JVal.func (Callback.user 1))] ∧
    (attach baseHeap [0] 0 {}).menuObjs.getD 0 [] = [("Save", JVal.ref 0)] ∧
    ((attach baseHeap [0] 0 {}).cfgObjs.getD 0 defaultCfg).menuRef = 1 ∧
    (attach baseHeap [0] 0 {}).menuObjs.getD 1 [] = [("Save", JVal.ref 0)] ∧
    callerItemEnabled (attach baseHeap [0] 0 {}) 0 "Save" = some true ∧
    (disable (attach baseHeap [0] 0 {}) [0] "Save").map
        (fun h2 => callerItemEnabled h2 0 "Save") = some (some false) := by
  decide

/-- C9 counterexample: display with an element and no position option
synthesizes clientX/clientY at the box top-left but places the menu with
the conf default anchor bottom, at (10, 25), not pointer-style at the
synthesized point (10, 20). -/
theorem display_element_not_pointer_style :
    displayPlacement ⟨10, 20, 5, 5⟩ ⟨0, 0, 50, 50⟩ {} 1000 800 = (10, 25) ∧
    positionContextMenu 10 20 ⟨10, 20, 5, 5⟩ ⟨0, 0, 50, 50⟩ "click" 0 0 1000 800
      = (10, 20) ∧
    ((10 : Int), (25 : Int)) ≠ ((10 : Int), (20 : Int)) := by
  decide

/-- C9 amended: display given an element synthesizes a trigger event whose
clientX/clientY are the bounding box top-left; when the caller options do
not override the anchor mode the merged config carries the conf default
bottom, so the menu is anchored below the element rather than
pointer-style at the synthesized point. -/
theorem display_element_placement (b mb : Box) (opts : Options) (bodyW bodyH : Int)
    (hpos : opts.position = none) :
    simulatedEvent b = (b.left, b.top) ∧
    (mergeConf 0 opts).position = "bottom" ∧
    displayPlacement b mb opts bodyW bodyH
      = positionContextMenu b.left b.top b mb "bottom"
          (opts.horizontalOffset.getD 0) (opts.verticalOffset.getD 0) bodyW bodyH := by
  refine ⟨rfl, ?_, ?_⟩
  · simp [mergeConf, hpos]
  · simp [displayPlacement, simulatedEvent, mergeConf, hpos]

theorem display_element_placement_witness :
    displayPlacement ⟨10, 20, 5, 5⟩ ⟨0, 0, 50, 50⟩ {} 1000 800
      = positionContextMenu 10 20 ⟨10, 20, 5, 5⟩ ⟨0, 0, 50, 50⟩ "bottom" 0 0 1000 800 :=
  (display_element_placement ⟨10, 20, 5, 5⟩ ⟨0, 0, 50, 50⟩ {} 1000 800 rfl).2.2

/-- C10: closeContextMenu is total (no error path), clears isOpen, and is
idempotent: a second close changes nothing and isOpen stays false. -/
theorem close_idempotent (s : MState) :
    (closeContextMenu s).isOpen = false ∧
    (closeContextMenu (closeContextMenu s)).isOpen = false ∧
    closeContextMenu (closeContextMenu s) = closeContextMenu s :=
  ⟨rfl, rfl, rfl⟩
